import Mathlib

/-!
Verification of the `cmdy` command-line library (error taxonomy,
positional-argument parsing, flag usage rendering).

The error taxonomy is embedded from `error.go`.  The positional argument
set and the flag usage renderer live in files that are not part of the
given sources (only their tests are), so those are modelled from the
spec, constrained to reproduce the expectations of `argset_test.go` and
`flag_test.go`.
-/

namespace Cmdy

/-- Fixed exit codes, from the constant block of `error.go`. -/
def ExitSuccess : Int := 0

/-- Fixed failure exit code. -/
def ExitFailure : Int := 1

/-- Fixed usage exit code. -/
def ExitUsage : Int := 64

/-- Fixed internal exit code. -/
def ExitInternal : Int := 255

/-- Shallow embedding of the dynamic error values that `error.go`
distinguishes.  `quietExit` embeds `QuietExit`; `exitError` embeds
`*exitError` (a code plus a wrapped error); `usageErr` embeds
`*usageError` (optional wrapped error, lazily-filled usage string, and
the help-request flag); `groupErr` embeds a concrete error type that
implements `Errors() []error` but not `Code() int` (its `Error()`
string, being type specific, is carried as a field); `groupWithCode`
embeds a concrete type implementing both `Errors() []error` and
`Code() int`; `plain` embeds any ordinary error with no recognized
method set. -/
inductive GoError where
  | quietExit (code : Int)
  | exitError (code : Int) (err : GoError)
  | usageErr (err : Option GoError) (usage : String) (helpRequest : Bool)
  | groupErr (msg : String) (errs : List GoError)
  | groupWithCode (msg : String) (errs : List GoError) (code : Int)
  | plain (msg : String)

/-- The `Error() string` method of each embedded error shape.
`QuietExit.Error` is `fmt.Sprintf("exit code %d", e)`; `exitError.Error`
delegates to the wrapped error; `usageError.Error` returns
"help requested" for help requests, "usage error" when no error is
wrapped, and the wrapped error's message otherwise. -/
def GoError.errMsg : GoError → String
  | .quietExit c => "exit code " ++ toString c
  | .exitError _ e => e.errMsg
  | .usageErr oe _ h =>
      if h then "help requested"
      else
        match oe with
        | none => "usage error"
        | some e => e.errMsg
  | .groupErr m _ => m
  | .groupWithCode m _ _ => m
  | .plain m => m

/-- Whether the dynamic type implements the `Code() int` accessor
(`QuietExit`, `*exitError` and `*usageError` do; a coded group does by
construction; a plain error and a code-less group do not). -/
def GoError.hasCode : GoError → Bool
  | .quietExit _ => true
  | .exitError _ _ => true
  | .usageErr _ _ _ => true
  | .groupWithCode _ _ _ => true
  | .groupErr _ _ => false
  | .plain _ => false

/-- The `Code() int` accessor where it exists: `QuietExit.Code` returns
the stored integer, `exitError.Code` the stored code, and
`usageError.Code` returns `0` for a help request and `ExitUsage`
otherwise.  On shapes without the accessor the value is never consulted. -/
def GoError.Code : GoError → Int
  | .quietExit c => c
  | .exitError c _ => c
  | .usageErr _ _ h => if h then 0 else ExitUsage
  | .groupWithCode _ _ c => c
  | .groupErr _ _ => 0
  | .plain _ => 0

/-- The `Unwrap() error` method: `exitError.Unwrap` returns the wrapped
error, `usageError.Unwrap` returns the (possibly absent) wrapped error,
and the remaining shapes expose no `Unwrap` method. -/
def GoError.Unwrap : GoError → Option GoError
  | .exitError _ e => some e
  | .usageErr oe _ _ => oe
  | _ => none

/-- `ErrWithCode` from `error.go`: tag an error with an exit code.  When
the error is already an `*exitError` its code field is overwritten in
place; otherwise a fresh `exitError` wrapper is allocated. -/
def ErrWithCode (code : Int) (err : GoError) : GoError :=
  match err with
  | .exitError _ inner => .exitError code inner
  | _ => .exitError code err

/-- `HelpRequest()` from `error.go`. -/
def HelpRequest : GoError :=
  .usageErr none "" true

/-- `UsageError(err)` from `error.go`. -/
def UsageError (err : GoError) : GoError :=
  .usageErr (some err) "" false

/-- The `errors.As(err, &u)` search for a `*usageError` target: the
dynamic value itself is tested first, then the `Unwrap` chain is
followed.  Of the embedded shapes only `exitError` both fails the test
and exposes `Unwrap`. -/
def asUsageError : GoError → Option (Option GoError × String × Bool)
  | .usageErr oe u h => some (oe, u, h)
  | .exitError _ e => asUsageError e
  | _ => none

/-- `IsHelpRequest` from `error.go`. -/
def IsHelpRequest (err : GoError) : Bool :=
  match asUsageError err with
  | some (_, _, h) => h
  | none => false

/-- `IsUsageError` from `error.go`. -/
def IsUsageError (err : GoError) : Bool :=
  (asUsageError err).isSome

/-- `ErrCode` from `error.go`: `nil` maps to `ExitSuccess`, a value
implementing `cmdy.Error` (that is, `Code() int`) maps to its code, and
everything else maps to `ExitInternal`. -/
def ErrCode : Option GoError → Int
  | none => ExitSuccess
  | some e => if e.hasCode then e.Code else ExitInternal

/-- Embedding of `strings.TrimSpace`: drop whitespace characters from
both ends of the string (written over the character list so that it
evaluates by kernel reduction). -/
def trimSpace (s : String) : String :=
  String.mk (((s.data.dropWhile Char.isWhitespace).reverse.dropWhile
    Char.isWhitespace).reverse)

/-- The message-accumulation loop of the `errorGroup` branch of
`FormatError`: every member message is prefixed with "- " and members
are separated by a newline (no separator before the first). -/
def joinGroup : List GoError → String
  | [] => ""
  | [e] => "- " ++ e.errMsg
  | e :: e2 :: rest => "- " ++ e.errMsg ++ "\n" ++ joinGroup (e2 :: rest)

/-- `FormatError` from `error.go`.  The branches mirror the Go type
switch in its order: `nil`, `QuietExit`, `*usageError`, `Error` (any
remaining shape with `Code() int`, i.e. `exitError` and a coded group),
`errorGroup`, default. -/
def FormatError : Option GoError → String × Int
  | none => ("", ExitSuccess)
  | some e =>
    match e with
    | .quietExit c => ("", c)
    | .usageErr oe usage h =>
        let msg := trimSpace usage
        let code : Int := if h then 0 else ExitUsage
        match oe with
        | none => (msg, code)
        | some u =>
            ((if msg = "" then msg else msg ++ "\n\n") ++ "error: " ++ u.errMsg, code)
    | .exitError c inner => (GoError.errMsg (.exitError c inner), c)
    | .groupWithCode m _ c => (m, c)
    | .groupErr _ errs => (joinGroup errs, ExitFailure)
    | .plain m => (m, ExitFailure)

namespace Arg

/-- Modelled from the spec: the positional declarations of the `arg`
package (`argset.go` is not among the given sources; only
`argset_test.go` is).  A declaration is `required` (exactly one token),
`optional` (one token, else a pre-configured default), or `remaining`
(all leftover tokens, bounded below by `minLen` and above by `maxLen`,
where `none` means unbounded; `AnyLen` is `0`/unbounded, `Min n` is
`n`/unbounded, `Max n` is `0`/`n`). -/
inductive ArgDecl where
  | required (name : String)
  | optional (name : String) (dflt : String)
  | remaining (name : String) (minLen : Nat) (maxLen : Option Nat)
  deriving DecidableEq, Repr

/-- A bound destination value after parsing: a scalar string or, for a
`remaining` declaration, the collected token list. -/
inductive ArgValue where
  | str (s : String)
  | strs (l : List String)
  deriving DecidableEq, Repr

/-- Modelled from the spec: the structured parse errors the claims
mention (`missing argument` naming the declaration and its 1-based
position; `too many arguments` reporting the excess count). -/
inductive ArgError where
  | missingArg (name : String) (pos : Nat)
  | tooManyArgs (excess : Nat)
  deriving DecidableEq, Repr

/-- Rendered error text, with the wording pinned by `argset_test.go`
("missing arg <foo> at position 1", "found 1 additional arg"). -/
def ArgError.message : ArgError → String
  | .missingArg nm pos => "missing arg <" ++ nm ++ "> at position " ++ toString pos
  | .tooManyArgs n =>
      "found " ++ toString n ++ " additional arg" ++ (if n = 1 then "" else "s")

/-- The first error raised during a parse pass is the one reported. -/
def keepFirst (cur : Option ArgError) (e : ArgError) : Option ArgError :=
  match cur with
  | some _ => cur
  | none => some e

/-- Modelled from the spec: the parse pass over the declarations.
Tokens are assigned strictly in declaration order; a `required` or
`optional` declaration consumes one token when available; an absent
token is a `missing argument` error for `required` and falls back to
the default for `optional`; a `remaining` declaration consumes all
leftover tokens and enforces its arity bounds; leftover tokens with no
`remaining` declaration are a `too many arguments` error counting the
excess.  Destinations keep their assigned values even when a later (or
earlier) declaration errors, as `argset_test.go` requires. -/
def parseLoop : List ArgDecl → List String → Nat → List (String × ArgValue) →
    Option ArgError → List (String × ArgValue) × Option ArgError
  | [], [], _, acc, err => (acc.reverse, err)
  | [], t :: ts, _, acc, err =>
      (acc.reverse, keepFirst err (.tooManyArgs (t :: ts).length))
  | (.required nm) :: ds, [], pos, acc, err =>
      parseLoop ds [] (pos + 1) ((nm, .str "") :: acc) (keepFirst err (.missingArg nm pos))
  | (.required nm) :: ds, t :: ts, pos, acc, err =>
      parseLoop ds ts (pos + 1) ((nm, .str t) :: acc) err
  | (.optional nm d) :: ds, [], pos, acc, err =>
      parseLoop ds [] (pos + 1) ((nm, .str d) :: acc) err
  | (.optional nm _) :: ds, t :: ts, pos, acc, err =>
      parseLoop ds ts (pos + 1) ((nm, .str t) :: acc) err
  | (.remaining nm mn mx) :: ds, toks, pos, acc, err =>
      let cnt := toks.length
      let err2 :=
        if cnt < mn then keepFirst err (.missingArg nm pos)
        else
          match mx with
          | some m => if m < cnt then keepFirst err (.tooManyArgs (cnt - m)) else err
          | none => err
      parseLoop ds [] (pos + 1) ((nm, .strs toks) :: acc) err2

/-- Modelled from the spec: `ArgSet.Parse`, returning the bound values
in declaration order together with the first structured error. -/
def Parse (decls : List ArgDecl) (tokens : List String) :
    List (String × ArgValue) × Option ArgError :=
  parseLoop decls tokens 1 [] none

end Arg

namespace Flag

/-- Modelled from the spec: one option declaration of a `FlagSet`
(`flag.go` is not among the given sources; only `flag_test.go` is).
`kind` is the value-slot tag shown as `=<kind>` ("" for a boolean flag,
which shows no value slot); `hint` is the optional extra signature
annotation a custom kind supplies (e.g. the duration format list);
`usageText` is the declared usage string; `defaultStr` is the rendered
default-value annotation when one is shown. -/
structure FlagDecl where
  name : String
  kind : String
  hint : String
  usageText : String
  defaultStr : Option String
  deriving DecidableEq, Repr

/-- Modelled from the spec: the left-hand signature column of a flag,
as pinned by `flag_test.go` ("  -bar=<int>", "  -dv=<duration>
(formats: ...)"). -/
def FlagDecl.signature (f : FlagDecl) : String :=
  "  -" ++ f.name ++ (if f.kind = "" then "" else "=<" ++ f.kind ++ ">")
    ++ (if f.hint = "" then "" else " " ++ f.hint)

/-- The right-hand column text: the usage text followed by the
`(default: ...)` annotation when one is shown. -/
def FlagDecl.bodyText (f : FlagDecl) : String :=
  match f.defaultStr with
  | none => f.usageText
  | some d =>
      (if f.usageText = "" then "" else f.usageText ++ " ") ++ "(default: " ++ d ++ ")"

/-- Modelled from the spec: the fixed total line width used for word
wrapping. -/
def wrapWidth : Nat := 90

/-- Modelled from the spec: the fixed column offset the usage text is
indented to. -/
def indentCols : Nat := 8

/-- Split on single spaces (the word boundaries used by the wrapper),
written over the character list so that it evaluates by kernel
reduction; matches Go's `strings.Split(s, " ")`. -/
def splitSpaceAux : List Char → List Char → List String
  | [], cur => [String.mk cur.reverse]
  | c :: cs, cur =>
      if c = ' ' then String.mk cur.reverse :: splitSpaceAux cs []
      else splitSpaceAux cs (c :: cur)

/-- Split a string into its space-separated words. -/
def splitSpace (s : String) : List String :=
  splitSpaceAux s.data []

/-- Greedy word wrap of the right-hand column to the fixed width. -/
def wrapWords : List String → String → List String
  | [], cur => [cur]
  | w :: ws, cur =>
      if cur = "" then wrapWords ws w
      else if cur.length + 1 + w.length ≤ wrapWidth - indentCols then
        wrapWords ws (cur ++ " " ++ w)
      else cur :: wrapWords ws w

/-- Modelled from the spec, pinned by `TestFlagUsage` and
`TestFlagUsageCollapsing`: the rendered block of one flag.  A flag with
no usage text and no default annotation renders as its signature line
alone; otherwise the signature line is followed by the wrapped,
8-space-indented usage lines.  No blank separator line is emitted in
either case (in `TestFlagUsage` the annotated `-b` block is followed
directly by the `-dv` signature line). -/
def FlagDecl.block (f : FlagDecl) : String :=
  f.signature ++ "\n" ++
    (if f.bodyText = "" then ""
     else String.join ((wrapWords (splitSpace f.bodyText) "").map
       (fun l => "        " ++ l ++ "\n")))

/-- Byte-wise lexicographic string comparison, the order Go's
`sort.Strings` uses on option names (written over character lists so
that it evaluates by kernel reduction). -/
def strLeB : List Char → List Char → Bool
  | [], _ => true
  | _ :: _, [] => false
  | a :: as, b :: bs =>
      if a.toNat < b.toNat then true
      else if b.toNat < a.toNat then false
      else strLeB as bs

/-- The name order used to sort option entries. -/
def byName (a b : FlagDecl) : Prop :=
  strLeB a.name.data b.name.data = true

instance : DecidableRel byName :=
  fun a b => inferInstanceAs (Decidable (strLeB a.name.data b.name.data = true))

/-- Option entries are sorted by option name before rendering. -/
def sortFlags (fs : List FlagDecl) : List FlagDecl :=
  List.insertionSort byName fs

/-- Modelled from the spec: `FlagSet.Usage()`, the concatenation of the
per-flag blocks in name order. -/
def Usage (fs : List FlagDecl) : String :=
  String.join ((sortFlags fs).map FlagDecl.block)

/-- Rendering rule as claim C8 words it (a second definition written
from the claim, for comparison with `Usage`): an annotated declaration
is followed by exactly one blank separator line before the next compact
run. -/
def blockClaimed (f : FlagDecl) : String :=
  f.block ++ (if f.bodyText = "" then "" else "\n")

/-- The usage text claim C8's words would produce. -/
def UsageClaimed (fs : List FlagDecl) : String :=
  String.join ((sortFlags fs).map blockClaimed)

end Flag

/-! Helper lemmas. -/

namespace Flag

/-- Two characters with equal code points are equal. -/
theorem char_toNat_inj {a b : Char} (h : a.toNat = b.toNat) : a = b := by
  refine Char.ext ?_
  apply UInt32.ext
  exact h

/-- `strLeB` is total. -/
theorem strLeB_total : ∀ l₁ l₂ : List Char, strLeB l₁ l₂ = true ∨ strLeB l₂ l₁ = true := by
  intro l₁
  induction l₁ with
  | nil => intro l₂; left; cases l₂ <;> rfl
  | cons a as ih =>
    intro l₂
    cases l₂ with
    | nil => right; rfl
    | cons b bs =>
      rcases Nat.lt_trichotomy a.toNat b.toNat with h | h | h
      · left; simp [strLeB, h]
      · rcases ih bs with h2 | h2
        · left; simp [strLeB, h, h2]
        · right; simp [strLeB, h.symm, h2]
      · right; simp [strLeB, h]

/-- `strLeB` is transitive. -/
theorem strLeB_trans :
    ∀ l₁ l₂ l₃ : List Char, strLeB l₁ l₂ = true → strLeB l₂ l₃ = true →
      strLeB l₁ l₃ = true := by
  intro l₁
  induction l₁ with
  | nil => intro l₂ l₃ _ _; cases l₃ <;> rfl
  | cons a as ih =>
    intro l₂ l₃ h12 h23
    cases l₂ with
    | nil => simp [strLeB] at h12
    | cons b bs =>
      cases l₃ with
      | nil => simp [strLeB] at h23
      | cons c cs =>
        simp only [strLeB] at h12 h23 ⊢
        by_cases hab : a.toNat < b.toNat
        · by_cases hbc : b.toNat < c.toNat
          · have hac : a.toNat < c.toNat := Nat.lt_trans hab hbc
            simp [hac]
          · by_cases hcb : c.toNat < b.toNat
            · simp [hbc, hcb] at h23
            · have hac : a.toNat < c.toNat := by omega
              simp [hac]
        · by_cases hba : b.toNat < a.toNat
          · simp [hab, hba] at h12
          · by_cases hbc : b.toNat < c.toNat
            · have hac : a.toNat < c.toNat := by omega
              simp [hac]
            · by_cases hcb : c.toNat < b.toNat
              · simp [hbc, hcb] at h23
              · have h1 : ¬ a.toNat < c.toNat := by omega
                have h2 : ¬ c.toNat < a.toNat := by omega
                simp only [hab, hba, if_false, if_neg] at h12
                simp only [hbc, hcb, if_false, if_neg] at h23
                simp only [h1, h2, if_false, if_neg]
                exact ih bs cs h12 h23

/-- `strLeB` is antisymmetric. -/
theorem strLeB_antisymm :
    ∀ l₁ l₂ : List Char, strLeB l₁ l₂ = true → strLeB l₂ l₁ = true → l₁ = l₂ := by
  intro l₁
  induction l₁ with
  | nil =>
    intro l₂ _ h21
    cases l₂ with
    | nil => rfl
    | cons b bs => simp [strLeB] at h21
  | cons a as ih =>
    intro l₂ h12 h21
    cases l₂ with
    | nil => simp [strLeB] at h12
    | cons b bs =>
      simp only [strLeB] at h12 h21
      rcases Nat.lt_trichotomy a.toNat b.toNat with hab | hab | hab
      · simp [hab] at h21
        omega
      · have : a = b := char_toNat_inj hab
        subst this
        simp [Nat.lt_irrefl] at h12 h21
        rw [ih bs h12 h21]
      · simp [hab] at h12
        omega

/-- Two lists that are permutations of each other, both sorted by a
relation whose two-sided instances force equal keys, and whose keys
repeat nowhere, are equal.  This is the determinism argument for the
sorted usage listing. -/
theorem sorted_perm_eq_of_nodup_keys {α β : Type} (key : α → β) (r : α → α → Prop)
    (hanti : ∀ a b, r a b → r b a → key a = key b) :
    ∀ {l₁ l₂ : List α}, l₁.Perm l₂ → l₁.Pairwise r → l₂.Pairwise r →
      (l₁.map key).Nodup → l₁ = l₂ := by
  intro l₁
  induction l₁ with
  | nil =>
    intro l₂ hp _ _ _
    exact (hp.symm.eq_nil).symm
  | cons a t ih =>
    intro l₂ hp hs₁ hs₂ hnd
    cases l₂ with
    | nil => exact absurd hp.eq_nil (by simp)
    | cons b t₂ =>
      have hb : b ∈ a :: t := hp.symm.subset (List.mem_cons_self b t₂)
      have hab : a = b := by
        rcases List.mem_cons.mp hb with h | hbt
        · exact h.symm
        · have ha : a ∈ b :: t₂ := hp.subset (List.mem_cons_self a t)
          rcases List.mem_cons.mp ha with h | hat
          · exact h
          · exfalso
            have r1 : r a b := List.rel_of_pairwise_cons hs₁ hbt
            have r2 : r b a := List.rel_of_pairwise_cons hs₂ hat
            have hkey : key a = key b := hanti a b r1 r2
            have : key b ∈ t.map key := List.mem_map_of_mem key hbt
            rw [← hkey] at this
            simp only [List.map_cons, List.nodup_cons] at hnd
            exact hnd.1 this
      subst hab
      have hp' : t.Perm t₂ := hp.cons_inv
      have := ih hp' (List.Pairwise.of_cons hs₁) (List.Pairwise.of_cons hs₂)
        (by simp only [List.map_cons, List.nodup_cons] at hnd; exact hnd.2)
      rw [this]

end Flag

/-- Folding string concatenation over a list factors out the
accumulator. -/
theorem string_foldl_append (l : List String) :
    ∀ acc : String,
      l.foldl (fun r s => r ++ s) acc = acc ++ l.foldl (fun r s => r ++ s) "" := by
  induction l with
  | nil => intro acc; rw [List.foldl, List.foldl, String.append_empty]
  | cons a t ih =>
    intro acc
    rw [List.foldl, List.foldl, ih (acc ++ a), ih ("" ++ a), String.empty_append,
      String.append_assoc]

/-- `String.join` distributes over cons. -/
theorem string_join_cons (a : String) (l : List String) :
    String.join (a :: l) = a ++ String.join l := by
  show List.foldl (fun r s => r ++ s) ("" ++ a) l = _
  rw [string_foldl_append l ("" ++ a), String.empty_append]
  rfl

/-- The accumulator pass of `String.intercalate` produces the
accumulator followed by every remaining element prefixed with the
separator. -/
theorem intercalate_go_eq (s : String) :
    ∀ (l : List String) (acc : String),
      String.intercalate.go acc s l = acc ++ String.join (l.map (fun x => s ++ x)) := by
  intro l
  induction l with
  | nil => intro acc; rw [String.intercalate.go, List.map_nil]; exact (String.append_empty acc).symm
  | cons a t ih =>
    intro acc
    rw [String.intercalate.go, ih, List.map_cons, string_join_cons, String.append_assoc,
      String.append_assoc, ← String.append_assoc s a]

/-- `String.intercalate` peels its first two elements. -/
theorem intercalate_cons2 (s a b : String) (l : List String) :
    String.intercalate s (a :: b :: l) = a ++ s ++ String.intercalate s (b :: l) := by
  show String.intercalate.go a s (b :: l) = a ++ s ++ String.intercalate.go b s l
  rw [intercalate_go_eq, intercalate_go_eq, List.map_cons, string_join_cons]
  rw [String.append_assoc, String.append_assoc]

/-- The `errorGroup` message loop of `FormatError` produces the member
messages, each prefixed with "- ", joined by newlines. -/
theorem joinGroup_eq (errs : List GoError) :
    joinGroup errs = String.intercalate "\n" (errs.map (fun e => "- " ++ e.errMsg)) := by
  induction errs with
  | nil => rfl
  | cons e rest ih =>
    cases rest with
    | nil => rfl
    | cons e2 rest2 =>
      simp only [joinGroup, ih, List.map_cons]
      rw [intercalate_cons2]

/-- `asUsageError` sees through the exit-code tag that `ErrWithCode`
adds, because `exitError` exposes `Unwrap`. -/
theorem asUsageError_errWithCode (c : Int) (e : GoError) :
    asUsageError (ErrWithCode c e) = asUsageError e := by
  cases e <;> simp [ErrWithCode, asUsageError]

/-! Claim theorems. -/

/-- C1: classifying `QuietExit c` via `FormatError` yields an empty
message and exit code `c`, even when `c = 0`; classifying the nil error
also yields an empty message and exit code 0; the two zero-code results
come from inputs a caller distinguishes by shape (a present `QuietExit`
value versus the absent error), not by code value. -/
theorem quietExit_classification :
    (∀ c : Int, FormatError (some (.quietExit c)) = ("", c))
    ∧ FormatError (some (.quietExit 0)) = ("", 0)
    ∧ FormatError none = ("", ExitSuccess)
    ∧ (some (GoError.quietExit 0)).isSome = true
    ∧ (none : Option GoError).isSome = false :=
  ⟨fun _ => rfl, rfl, rfl, rfl, rfl⟩

/-- C2 counterexample: a usage error whose stored usage text is empty
and which wraps an underlying error.  `FormatError` emits
"error: boom" with no leading separator, while the claim's
unconditional "\n\nerror: " append would give "\n\nerror: boom". -/
theorem usageError_trim_counterexample :
    FormatError (some (.usageErr (some (.plain "boom")) "" false)) = ("error: boom", ExitUsage)
    ∧ ((FormatError (some (.usageErr (some (.plain "boom")) "" false))).1 ==
        trimSpace "" ++ "\n\nerror: " ++ GoError.errMsg (.plain "boom")) = false := by
  constructor
  · rfl
  · decide

/-- C2 amended: for every usage-error value, `FormatError` returns the
stored usage text trimmed of surrounding whitespace; when an underlying
error is present, "\n\nerror: " plus the underlying message is appended
if the trimmed text is nonempty, and the message is just "error: " plus
the underlying message if the trimmed text is empty.  The exit code is
0 when the usage error is a help request and the fixed usage code 64
otherwise. -/
theorem usageError_format (oe : Option GoError) (u : String) (h : Bool) :
    FormatError (some (.usageErr oe u h)) =
      ((match oe with
        | none => trimSpace u
        | some e =>
            if trimSpace u = "" then "error: " ++ e.errMsg
            else trimSpace u ++ "\n\n" ++ "error: " ++ e.errMsg),
       if h then 0 else ExitUsage) := by
  cases oe with
  | none => rfl
  | some e =>
    simp only [FormatError]
    by_cases hu : trimSpace u = "" <;>
      simp [hu, String.append_assoc, String.empty_append]

/-- C3 counterexample: at `e = exitError 7 (plain "boom")`, retagging
with codes 1 then 2 yields an error that wraps `e`'s own wrapped error
(`plain "boom"`, which exposes no `Code`), not `e` itself (which
does), so the claim's "wraps e directly" fails for an already-tagged
`e`. -/
theorem errWithCode_retag_counterexample :
    ErrWithCode 2 (ErrWithCode 1 (.exitError 7 (.plain "boom"))) = .exitError 2 (.plain "boom")
    ∧ (GoError.Unwrap (ErrWithCode 2 (ErrWithCode 1 (.exitError 7 (.plain "boom")))) ≠
        some (GoError.exitError 7 (.plain "boom")))
    ∧ (GoError.Unwrap (ErrWithCode 2 (ErrWithCode 1
        (.exitError 7 (.plain "boom"))))).map GoError.hasCode = some false := by
  refine ⟨rfl, ?_, rfl⟩
  intro hcontra
  simp [ErrWithCode, GoError.Unwrap] at hcontra

/-- C3 amended: double tagging replaces the code rather than nesting:
`ErrWithCode c2 (ErrWithCode c1 e)` equals `ErrWithCode c2 e`, its
`Code()` is `c2`, its message is `e`'s message, and it wraps `e`
directly when `e` is not itself exit-code-tagged, otherwise it wraps
`e`'s own wrapped error. -/
theorem errWithCode_replaces (c1 c2 : Int) (e : GoError) :
    ErrWithCode c2 (ErrWithCode c1 e) = ErrWithCode c2 e
    ∧ (ErrWithCode c2 (ErrWithCode c1 e)).Code = c2
    ∧ (ErrWithCode c2 (ErrWithCode c1 e)).hasCode = true
    ∧ (ErrWithCode c2 (ErrWithCode c1 e)).errMsg = e.errMsg
    ∧ GoError.Unwrap (ErrWithCode c2 (ErrWithCode c1 e)) =
        some (match e with
              | .exitError _ inner => inner
              | _ => e) := by
  cases e <;>
    simp [ErrWithCode, GoError.Code, GoError.hasCode, GoError.errMsg, GoError.Unwrap]

/-- C4: for an error exposing `Errors() []error` but no `Code()`
accessor, `FormatError` returns each member's message with a leading
"- " marker, joined by newlines, and the fixed failure exit code 1
(such a value never reaches the coded branches of the type switch). -/
theorem errorGroup_format (m : String) (errs : List GoError) :
    FormatError (some (.groupErr m errs)) =
      (String.intercalate "\n" (errs.map (fun e => "- " ++ e.errMsg)), ExitFailure) := by
  simp only [FormatError]
  rw [joinGroup_eq]

/-- C9: `ErrCode` maps the nil error to the success code 0, every
shape with a `Code()` accessor to that accessor's value (the stored
code for `QuietExit` and `exitError`, a coded group's own code, and
0 or 64 for a usage error by help-request flag), and every other
non-nil error to the internal code 255. -/
theorem errCode_resolution :
    ErrCode none = ExitSuccess
    ∧ (∀ c : Int, ErrCode (some (.quietExit c)) = c)
    ∧ (∀ (c : Int) (e : GoError), ErrCode (some (.exitError c e)) = c)
    ∧ (∀ (oe : Option GoError) (u : String) (h : Bool),
        ErrCode (some (.usageErr oe u h)) = GoError.Code (.usageErr oe u h))
    ∧ (∀ (m : String) (errs : List GoError) (c : Int),
        ErrCode (some (.groupWithCode m errs c)) = c)
    ∧ (∀ (m : String) (errs : List GoError),
        ErrCode (some (.groupErr m errs)) = ExitInternal)
    ∧ (∀ m : String, ErrCode (some (.plain m)) = ExitInternal) :=
  ⟨rfl, fun _ => rfl, fun _ _ => rfl, fun _ _ _ => rfl, fun _ _ _ => rfl,
    fun _ _ => rfl, fun _ => rfl⟩

/-- C10: a help request is in particular a usage error, and both
predicates look through the `Unwrap` chain, so wrapping with
`ErrWithCode` (whose result exposes `Unwrap`) never hides a usage error
or help request. -/
theorem helpRequest_detection (e : GoError) (c : Int) :
    (IsHelpRequest e = true → IsUsageError e = true)
    ∧ IsUsageError (ErrWithCode c e) = IsUsageError e
    ∧ IsHelpRequest (ErrWithCode c e) = IsHelpRequest e
    ∧ IsHelpRequest HelpRequest = true
    ∧ IsUsageError (ErrWithCode c HelpRequest) = true := by
  refine ⟨?_, ?_, ?_, rfl, rfl⟩
  · intro hh
    unfold IsHelpRequest at hh
    unfold IsUsageError
    cases hx : asUsageError e with
    | none => rw [hx] at hh; simp at hh
    | some v => simp [hx]
  · simp [IsUsageError, asUsageError_errWithCode]
  · simp [IsHelpRequest, asUsageError_errWithCode]

/-- C10 witness: the detection facts at a concrete wrapped help
request. -/
theorem helpRequest_detection_witness :
    IsUsageError (GoError.usageErr none "u" true) = true
    ∧ IsHelpRequest (ErrWithCode 3 (GoError.usageErr none "u" true)) = true := by
  constructor
  · exact (helpRequest_detection (GoError.usageErr none "u" true) 3).1 rfl
  · rw [(helpRequest_detection (GoError.usageErr none "u" true) 3).2.2.1]
    rfl

/-- C5: for declarations `required foo`, `optional bar` (default
"default"), `required baz`: parsing ["a","b","c"] binds foo="a",
bar="b", baz="c" with no error; parsing ["a"] binds foo="a", leaves bar
at its default and baz at "", and reports a missing-argument error
naming baz at 1-based position 3, with the wording of
`argset_test.go`. -/
theorem argSet_scenario_a :
    Arg.Parse [.required "foo", .optional "bar" "default", .required "baz"] ["a", "b", "c"] =
      ([("foo", .str "a"), ("bar", .str "b"), ("baz", .str "c")], none)
    ∧ Arg.Parse [.required "foo", .optional "bar" "default", .required "baz"] ["a"] =
      ([("foo", .str "a"), ("bar", .str "default"), ("baz", .str "")],
        some (.missingArg "baz" 3))
    ∧ Arg.ArgError.message (.missingArg "baz" 3) = "missing arg <baz> at position 3" :=
  ⟨rfl, rfl, rfl⟩

/-- C6: a `remaining` declaration with minimum arity 1 fails on zero
leftover tokens with a missing-argument error and succeeds on one
token, binding it (the single-token parse fails only in the
contradictory `at-most 0` configuration); a `remaining` declaration
with maximum arity 1 fails on two tokens with a too-many-arguments
error counting the excess; and with no `remaining` declaration,
leftover tokens after the last declaration yield a too-many-arguments
error reporting the excess count. -/
theorem argSet_remaining_arity (nm t t1 t2 : String) (mx : Option Nat) (rest : List String) :
    Arg.Parse [.remaining nm 1 mx] [] = ([(nm, .strs [])], some (.missingArg nm 1))
    ∧ Arg.Parse [.remaining nm 1 mx] [t] =
        ([(nm, .strs [t])],
          match mx with
          | some 0 => some (.tooManyArgs 1)
          | _ => none)
    ∧ Arg.Parse [.remaining nm 0 (some 1)] [t1, t2] =
        ([(nm, .strs [t1, t2])], some (.tooManyArgs 1))
    ∧ Arg.Parse [.remaining nm 1 (some 1)] [t1, t2] =
        ([(nm, .strs [t1, t2])], some (.tooManyArgs 1))
    ∧ Arg.Parse [.required nm] (t :: rest) =
        ([(nm, .str t)],
          match rest with
          | [] => none
          | _ :: _ => some (.tooManyArgs rest.length)) := by
  refine ⟨rfl, ?_, rfl, rfl, ?_⟩
  · cases mx with
    | none => rfl
    | some m => cases m with
      | zero => rfl
      | succ n => rfl
  · cases rest with
    | nil => rfl
    | cons r rs => rfl

/-- C7: the rendered flag usage is a pure function of the declared
state: for flag sets with distinct names, any declaration order yields
the same output, the rendered entries are sorted by flag name, and
rendering twice yields identical output (trivially, since the renderer
is a pure function of the declared set). -/
theorem flag_usage_deterministic (l₁ l₂ : List Flag.FlagDecl)
    (hperm : l₁.Perm l₂) (hnodup : (l₁.map Flag.FlagDecl.name).Nodup) :
    Flag.Usage l₁ = Flag.Usage l₂
    ∧ List.Sorted Flag.byName (Flag.sortFlags l₁)
    ∧ Flag.Usage l₁ = Flag.Usage l₁ := by
  have htot : IsTotal Flag.FlagDecl Flag.byName :=
    ⟨fun a b => Flag.strLeB_total a.name.data b.name.data⟩
  have htr : IsTrans Flag.FlagDecl Flag.byName :=
    ⟨fun a b c => Flag.strLeB_trans a.name.data b.name.data c.name.data⟩
  have hanti : ∀ a b : Flag.FlagDecl, Flag.byName a b → Flag.byName b a → a.name = b.name := by
    intro a b h1 h2
    exact String.ext (Flag.strLeB_antisymm a.name.data b.name.data h1 h2)
  have hs1 : (Flag.sortFlags l₁).Pairwise Flag.byName :=
    @List.sorted_insertionSort _ Flag.byName _ htot htr l₁
  have hs2 : (Flag.sortFlags l₂).Pairwise Flag.byName :=
    @List.sorted_insertionSort _ Flag.byName _ htot htr l₂
  have hchain : (Flag.sortFlags l₁).Perm (Flag.sortFlags l₂) :=
    ((List.perm_insertionSort Flag.byName l₁).trans hperm).trans
      (List.perm_insertionSort Flag.byName l₂).symm
  have hnd : ((Flag.sortFlags l₁).map Flag.FlagDecl.name).Nodup := by
    have hp : (l₁.map Flag.FlagDecl.name).Perm
        ((Flag.sortFlags l₁).map Flag.FlagDecl.name) :=
      ((List.perm_insertionSort Flag.byName l₁).map Flag.FlagDecl.name).symm
    exact hp.nodup hnodup
  have hkey : Flag.sortFlags l₁ = Flag.sortFlags l₂ :=
    Flag.sorted_perm_eq_of_nodup_keys Flag.FlagDecl.name Flag.byName hanti hchain hs1 hs2 hnd
  refine ⟨?_, hs1, rfl⟩
  unfold Flag.Usage
  rw [hkey]

/-- C7 witness: two concrete flag sets that are permutations of each
other with distinct names render identically. -/
theorem flag_usage_deterministic_witness :
    Flag.Usage [⟨"foo", "int", "", "", none⟩, ⟨"bar", "int", "", "", none⟩] =
      Flag.Usage [⟨"bar", "int", "", "", none⟩, ⟨"foo", "int", "", "", none⟩] :=
  (flag_usage_deterministic
    [⟨"foo", "int", "", "", none⟩, ⟨"bar", "int", "", "", none⟩]
    [⟨"bar", "int", "", "", none⟩, ⟨"foo", "int", "", "", none⟩]
    (by decide) (by decide)).1

/-- C8 counterexample: a flag set with one annotated flag (`-bar`, with
usage text) and one compact flag (`-foo`, without).  The renderer (as
pinned by `TestFlagUsage` and `TestFlagUsageCollapsing`, where no block
is ever followed by a blank line) puts the `-foo` signature line
directly after the annotated `-bar` block, while the claim's rule — a
blank separator line after every annotated declaration — would insert
an empty line between them. -/
theorem flag_usage_separator_counterexample :
    Flag.Usage [⟨"bar", "int", "", "Bar details.", none⟩, ⟨"foo", "int", "", "", none⟩] =
      "  -bar=<int>\n        Bar details.\n  -foo=<int>\n"
    ∧ Flag.UsageClaimed [⟨"bar", "int", "", "Bar details.", none⟩, ⟨"foo", "int", "", "", none⟩] =
      "  -bar=<int>\n        Bar details.\n\n  -foo=<int>\n"
    ∧ (("  -bar=<int>\n        Bar details.\n  -foo=<int>\n" ==
        "  -bar=<int>\n        Bar details.\n\n  -foo=<int>\n") = false) := by
  refine ⟨by decide, by decide, by decide⟩

/-- C8 amended: a declaration with empty usage text, no hint and no
default annotation renders as a signature-only line, and no declaration
— compact or annotated — is followed by a blank separator line: an
annotated block's last usage line is followed directly by the next
signature line, exactly as in `TestFlagUsageCollapsing` and
`TestFlagUsage`. -/
theorem flag_usage_collapsing (nm kind : String) :
    (Flag.FlagDecl.mk nm kind "" "" none).block =
      (Flag.FlagDecl.mk nm kind "" "" none).signature ++ "\n"
    ∧ Flag.Usage [⟨"foo", "int", "", "", none⟩, ⟨"bar", "int", "", "", none⟩] =
        "  -bar=<int>\n  -foo=<int>\n"
    ∧ Flag.Usage [⟨"bar", "int", "", "Bar details.", none⟩, ⟨"foo", "int", "", "", none⟩] =
        "  -bar=<int>\n        Bar details.\n  -foo=<int>\n" := by
  refine ⟨?_, by decide, by decide⟩
  simp [Flag.FlagDecl.block, Flag.FlagDecl.bodyText]

end Cmdy
